import Mathlib

/-!
Verification of the core VaR (Value at Risk) computation of src/VaR.py.

The script builds a daily return series from a price series with
pandas pct_change().dropna() (line 49), rejects series shorter than 10
entries (lines 50-51), and then computes either the Historical VaR
(numpy percentile of the returns at (1 - confidence_level) * 100 with
the default linear interpolation, line 57) or the Variance-Covariance
VaR (mean + z_score * std with z_score = norm.ppf(1 - confidence_level)
and std the numpy population standard deviation, lines 59-62).  The
dollar figure is var_dollar = var_percent * investment (line 64), and
the user-visible currency amount is its negation (line 69).

Arithmetic is modelled exactly over the rationals.  The two numeric
kernels that leave the rationals, scipy norm.ppf (the standard normal
inverse CDF) and the square root taken inside numpy std, are passed in
as explicit function parameters ppf and sqrtFn; every theorem below
holds for arbitrary kernels or under the minimal stated assumptions
about them, and the one concrete test point fixes ppf at the known
double-precision value of norm.ppf(0.05).
-/

namespace VaR

/-- Values of the pandas return series before dropna: a finite rational,
positive or negative infinity (from division by a zero price), or NaN
(the first element of pct_change, or 0/0). -/
inductive PVal where
  | fin (q : ℚ)
  | posInf
  | negInf
  | nan
deriving DecidableEq

/-- Whether a pandas value is NaN.  Infinities are not NaN. -/
def PVal.isNan : PVal → Bool
  | PVal.nan => true
  | _ => false

/-- One step of pandas pct_change: the simple return p / prev - 1 of a
consecutive price pair, with IEEE division semantics when the previous
price is zero: a nonzero numerator gives a signed infinity and 0/0
gives NaN. -/
def pctChangeStep (prev p : ℚ) : PVal :=
  if prev = 0 then
    if p = 0 then PVal.nan
    else if 0 < p then PVal.posInf
    else PVal.negInf
  else PVal.fin (p / prev - 1)

/-- Returns of all consecutive pairs starting from a given previous price. -/
def pctChangeAux : ℚ → List ℚ → List PVal
  | _, [] => []
  | prev, p :: rest => pctChangeStep prev p :: pctChangeAux p rest

/-- prices.pct_change() of line 49: the first element is NaN, the rest are
the consecutive simple returns. -/
def pctChange : List ℚ → List PVal
  | [] => []
  | p :: rest => PVal.nan :: pctChangeAux p rest

/-- Series.dropna: removes exactly the NaN entries.  Infinities stay. -/
def dropna (l : List PVal) : List PVal := l.filter (fun v => !v.isNan)

/-- Line 49 of src/VaR.py: returns = prices.pct_change().dropna(). -/
def returnsOf (prices : List ℚ) : List PVal := dropna (pctChange prices)

/-- numpy mean of the return series (line 59). -/
def npMean (r : List ℚ) : ℚ := r.sum / r.length

/-- Sum of squared deviations from the mean. -/
def sumSqDev (r : List ℚ) : ℚ := (r.map (fun x => (x - npMean r) ^ 2)).sum

/-- The quantity under the square root in numpy std with its default
ddof = 0 (line 60): the population variance, divisor n. -/
def npVariance (r : List ℚ) : ℚ := sumSqDev r / r.length

/-- The Bessel-corrected sample variance with divisor n - 1.  This is the
alternative estimator named by the spec; the code does not use it. -/
def besselVariance (r : List ℚ) : ℚ := sumSqDev r / ((r.length : ℚ) - 1)

/-- Insert a value into an already ascending list, keeping it ascending. -/
def insertSorted (x : ℚ) : List ℚ → List ℚ
  | [] => [x]
  | y :: ys => if x ≤ y then x :: y :: ys else y :: insertSorted x ys

/-- Ascending sort of the sample, as numpy percentile performs internally. -/
def sortAsc (l : List ℚ) : List ℚ :=
  l.foldr insertSorted []

/-- Floor of a nonnegative rational as a natural number.  For x ≥ 0 this
equals the mathematical floor; npPercentile only applies it to the
nonnegative virtual index q / 100 * (n - 1). -/
def ratFloorNat (x : ℚ) : ℕ := x.num.toNat / x.den

/-- numpy percentile with the default linear interpolation between order
statistics (line 57): sort the sample ascending, form the virtual index
h = q / 100 * (n - 1), and interpolate linearly between the order
statistics at floor h and at the next position (clipped to n - 1).
numpy rejects q outside [0, 100] and empty samples; those cases are
modelled as none. -/
def npPercentile (r : List ℚ) (q : ℚ) : Option ℚ :=
  if 0 ≤ q ∧ q ≤ 100 ∧ r ≠ [] then
    let s := sortAsc r
    let n := s.length
    let hIdx : ℚ := q / 100 * (n - 1)
    let i : ℕ := ratFloorNat hIdx
    let lo := s.getD i 0
    let hi := s.getD (min (i + 1) (n - 1)) 0
    some (lo + (hIdx - i) * (hi - lo))
  else none

/-- The Variance-Covariance percent VaR of line 62: mean + z_score * std. -/
def varcovVarPercent (mean z std : ℚ) : ℚ := mean + z * std

/-- The VaR method selector of line 16 and the branch at lines 55-62. -/
inductive Method
  | historical
  | varianceCovariance
deriving DecidableEq

/-- Failures of the core computation: the sample-size rejection of
lines 50-51, and the numpy rejection of a percentile outside [0, 100]. -/
inductive VaRError
  | insufficientData
  | percentileDomain
deriving DecidableEq

/-- Result of one VaR computation.  varReturn is var_percent (lines 57
and 62); varCurrency is the displayed currency loss, the negation of
var_dollar = var_percent * investment (lines 64 and 69); curveParams
is the (mean, std) pair that the Variance-Covariance branch feeds to
the density overlay (line 89), absent for Historical. -/
structure VaRResult where
  varReturn : ℚ
  varCurrency : ℚ
  curveParams : Option (ℚ × ℚ)
deriving DecidableEq

/-- The VaR computation block of lines 50-64 of src/VaR.py, over an
already-built return series.  ppf is the standard normal inverse CDF
kernel (scipy norm.ppf, line 61) and sqrtFn the square-root kernel
inside numpy std (line 60). -/
def estimate (ppf sqrtFn : ℚ → ℚ) (returns : List ℚ) (method : Method)
    (confidenceLevel investment : ℚ) : Except VaRError VaRResult :=
  if returns.length < 10 then Except.error VaRError.insufficientData
  else
    match method with
    | Method.historical =>
      (npPercentile returns ((1 - confidenceLevel) * 100)).elim
        (Except.error VaRError.percentileDomain)
        (fun v => Except.ok ⟨v, -(v * investment), none⟩)
    | Method.varianceCovariance =>
      let m := npMean returns
      let s := sqrtFn (npVariance returns)
      let v := varcovVarPercent m (ppf (1 - confidenceLevel)) s
      Except.ok ⟨v, -(v * investment), some (m, s)⟩

/-- The standard normal inverse CDF at 0.05, the value scipy returns for
norm.ppf(0.05) at double precision: -1.6448536269514722.  Every theorem
that uses it also holds for any value within 1 / 100000 of it. -/
def normPpf005 : ℚ := -16448536269514722 / 10000000000000000

/-- The synthetic 10-element return series named by the spec test
properties. -/
def demoReturns : List ℚ :=
  [-5/100, -3/100, -1/100, 0, 1/100, 2/100, 3/100, 4/100, 5/100, 6/100]

/-! Helper lemmas shared by the claim theorems. -/

theorem dropna_nan_cons (l : List PVal) : dropna (PVal.nan :: l) = dropna l := by
  simp [dropna, PVal.isNan]

theorem dropna_fin_cons (q : ℚ) (l : List PVal) :
    dropna (PVal.fin q :: l) = PVal.fin q :: dropna l := by
  simp [dropna, PVal.isNan]

theorem dropna_fin_zipWith (f : ℚ → ℚ → ℚ) (l1 l2 : List ℚ) :
    dropna (List.zipWith (fun a b => PVal.fin (f a b)) l1 l2)
      = List.zipWith (fun a b => PVal.fin (f a b)) l1 l2 := by
  induction l1 generalizing l2 with
  | nil => rfl
  | cons a t ih =>
    cases l2 with
    | nil => rfl
    | cons b t2 =>
      rw [List.zipWith_cons_cons, dropna_fin_cons, ih t2]

theorem pctChangeAux_eq_zipWith (prev : ℚ) (l : List ℚ) (hprev : prev ≠ 0)
    (hl : ∀ p ∈ l, p ≠ 0) :
    pctChangeAux prev l
      = List.zipWith (fun a b => PVal.fin ((b - a) / a)) (prev :: l) l := by
  induction l generalizing prev with
  | nil => rfl
  | cons p rest ih =>
    have hp : p ≠ 0 := hl p (List.mem_cons_self _ _)
    have hrest : ∀ x ∈ rest, x ≠ 0 := fun x hx => hl x (List.mem_cons_of_mem _ hx)
    rw [pctChangeAux, List.zipWith_cons_cons, ih p hp hrest, pctChangeStep,
      if_neg hprev, div_sub_one hprev]

theorem returnsOf_pos_eq (prices : List ℚ) (hpos : ∀ p ∈ prices, 0 < p) :
    returnsOf prices
      = List.zipWith (fun a b => PVal.fin ((b - a) / a)) prices prices.tail := by
  cases prices with
  | nil => rfl
  | cons p rest =>
    have hp : p ≠ 0 := ne_of_gt (hpos p (List.mem_cons_self _ _))
    have hrest : ∀ x ∈ rest, x ≠ 0 :=
      fun x hx => ne_of_gt (hpos x (List.mem_cons_of_mem _ hx))
    show dropna (PVal.nan :: pctChangeAux p rest) = _
    rw [dropna_nan_cons, pctChangeAux_eq_zipWith p rest hp hrest,
      dropna_fin_zipWith (fun a b => (b - a) / a) (p :: rest) rest]
    rfl

theorem npPercentile_eq_some (r : List ℚ) (q : ℚ) (h0 : 0 ≤ q) (h1 : q ≤ 100)
    (hne : r ≠ []) :
    npPercentile r q = some ((npPercentile r q).getD 0) := by
  unfold npPercentile
  rw [if_pos ⟨h0, h1, hne⟩]
  rfl

theorem estimate_too_short (ppf sqrtFn : ℚ → ℚ) (r : List ℚ) (m : Method)
    (cl inv : ℚ) (h : r.length < 10) :
    estimate ppf sqrtFn r m cl inv = Except.error VaRError.insufficientData := by
  unfold estimate
  rw [if_pos h]

theorem estimate_varcov_eq (ppf sqrtFn : ℚ → ℚ) (r : List ℚ) (cl inv : ℚ)
    (h : 10 ≤ r.length) :
    estimate ppf sqrtFn r Method.varianceCovariance cl inv
      = Except.ok ⟨varcovVarPercent (npMean r) (ppf (1 - cl)) (sqrtFn (npVariance r)),
          -(varcovVarPercent (npMean r) (ppf (1 - cl)) (sqrtFn (npVariance r)) * inv),
          some (npMean r, sqrtFn (npVariance r))⟩ := by
  unfold estimate
  rw [if_neg (by omega)]

theorem estimate_hist_eq (ppf sqrtFn : ℚ → ℚ) (r : List ℚ) (cl inv : ℚ)
    (h : 10 ≤ r.length) (hc0 : 0 ≤ cl) (hc1 : cl ≤ 1) :
    estimate ppf sqrtFn r Method.historical cl inv
      = Except.ok ⟨(npPercentile r ((1 - cl) * 100)).getD 0,
          -((npPercentile r ((1 - cl) * 100)).getD 0 * inv), none⟩ := by
  have hne : r ≠ [] := by
    intro hr
    rw [hr] at h
    simp at h
  have hq0 : 0 ≤ (1 - cl) * 100 := by nlinarith
  have hq1 : (1 - cl) * 100 ≤ 100 := by nlinarith
  unfold estimate
  rw [if_neg (by omega), npPercentile_eq_some r _ hq0 hq1 hne]
  rfl

theorem demo_percentile_90 :
    npPercentile demoReturns ((1 - 9/10) * 100) = some (-4/125) := by
  have h9 : Int.toNat 9 = 9 := rfl
  norm_num [npPercentile, demoReturns, sortAsc, insertSorted, ratFloorNat, h9, List.getD]
  exact fun h => absurd h (List.cons_ne_nil _ _)

theorem demo_percentile_95 :
    npPercentile demoReturns ((1 - 95/100) * 100) = some (-41/1000) := by
  have h9 : Int.toNat 9 = 9 := rfl
  norm_num [npPercentile, demoReturns, sortAsc, insertSorted, ratFloorNat, h9, List.getD]
  exact fun h => absurd h (List.cons_ne_nil _ _)

theorem demo_hist_1000 :
    estimate (fun _ => 0) (fun _ => 0) demoReturns Method.historical (9/10) 1000
      = Except.ok ⟨-4/125, 32, none⟩ := by
  rw [estimate_hist_eq _ _ demoReturns (9/10) 1000 (by decide) (by norm_num) (by norm_num),
    demo_percentile_90]
  norm_num

theorem demo_hist_2x1000 :
    estimate (fun _ => 0) (fun _ => 0) demoReturns Method.historical (9/10) (2 * 1000)
      = Except.ok ⟨-4/125, 64, none⟩ := by
  rw [estimate_hist_eq _ _ demoReturns (9/10) (2 * 1000) (by decide) (by norm_num)
    (by norm_num), demo_percentile_90]
  norm_num

/-! Claim theorems. -/

/-- C1 counterexample: at the test point mu = 0.001, sigma = 0.02 and
confidenceLevel = 0.95, where the standard normal inverse CDF gives
z = norm.ppf(0.05) = -1.6448536269514722, the Variance-Covariance
percent VaR mu + z * sigma differs from -0.0319 by about 2.93e-6, so it
is not within 1e-6 of -0.0319 as the claim states. -/
theorem varcov_testpoint_not_within_1e6 :
    1/1000000 < |varcovVarPercent (1/1000) normPpf005 (2/100) - (-319/10000)| := by
  have hx : varcovVarPercent (1/1000) normPpf005 (2/100) - (-319/10000)
      = 2927460970556/1000000000000000000 := by
    norm_num [varcovVarPercent, normPpf005]
  rw [hx, abs_of_pos (by norm_num)]
  norm_num

/-- C1 (amended): for every return series of length at least 10 and every
confidence level, the Variance-Covariance branch returns
varReturn = mu + z * sigma with mu the sample mean, sigma the numpy
standard deviation (square root of the divisor-n variance) and
z = ppf(1 - confidenceLevel); and for mu = 0.001, sigma = 0.02,
confidenceLevel = 0.95 the result is within 1e-5 (not 1e-6) of -0.0319,
for any z within 1e-5 of the double-precision norm.ppf(0.05). -/
theorem varcov_formula_and_testpoint_within_1e5 (ppf sqrtFn : ℚ → ℚ) (r : List ℚ)
    (cl inv z : ℚ) (hlen : 10 ≤ r.length) (hz : |z - normPpf005| ≤ 1/100000) :
    estimate ppf sqrtFn r Method.varianceCovariance cl inv
      = Except.ok ⟨varcovVarPercent (npMean r) (ppf (1 - cl)) (sqrtFn (npVariance r)),
          -(varcovVarPercent (npMean r) (ppf (1 - cl)) (sqrtFn (npVariance r)) * inv),
          some (npMean r, sqrtFn (npVariance r))⟩ ∧
    |varcovVarPercent (1/1000) z (2/100) - (-319/10000)| ≤ 1/100000 := by
  refine ⟨estimate_varcov_eq ppf sqrtFn r cl inv hlen, ?_⟩
  have hdecomp : varcovVarPercent (1/1000) z (2/100) - (-319/10000)
      = (z - normPpf005) * (2/100) + 2927460970556/1000000000000000000 := by
    unfold varcovVarPercent normPpf005
    ring
  rw [hdecomp]
  calc |(z - normPpf005) * (2/100) + 2927460970556/1000000000000000000|
      ≤ |(z - normPpf005) * (2/100)| + |(2927460970556/1000000000000000000 : ℚ)| :=
        abs_add _ _
    _ = |z - normPpf005| * (2/100) + 2927460970556/1000000000000000000 := by
        rw [abs_mul, abs_of_pos (show (0:ℚ) < 2/100 by norm_num),
          abs_of_pos (show (0:ℚ) < 2927460970556/1000000000000000000 by norm_num)]
    _ ≤ (1/100000) * (2/100) + 2927460970556/1000000000000000000 := by
        have hm := mul_le_mul_of_nonneg_right hz (show (0:ℚ) ≤ 2/100 by norm_num)
        linarith
    _ ≤ 1/100000 := by norm_num

/-- C1 witness: the amended theorem applied to the demo series at
confidenceLevel 0.95, investment 1000, with z the double-precision
norm.ppf(0.05). -/
theorem varcov_formula_and_testpoint_within_1e5_witness :
    (estimate (fun _ => 0) (fun _ => 0) demoReturns Method.varianceCovariance
        (95/100) 1000
      = Except.ok ⟨varcovVarPercent (npMean demoReturns) 0 0,
          -(varcovVarPercent (npMean demoReturns) 0 0 * 1000),
          some (npMean demoReturns, 0)⟩) ∧
    |varcovVarPercent (1/1000) normPpf005 (2/100) - (-319/10000)| ≤ 1/100000 :=
  varcov_formula_and_testpoint_within_1e5 (fun _ => 0) (fun _ => 0) demoReturns
    (95/100) 1000 normPpf005 (by decide) (by rw [sub_self, abs_zero]; norm_num)

/-- C2: for every return series of length at least 10 and confidence level
in (0, 1), the Historical branch returns exactly the numpy percentile of
the returns at probability (1 - confidenceLevel), which implements the
single fixed linear interpolation between order statistics; and on the
10-element demo series at confidenceLevel 0.90 that rule gives
-0.032 = -4/125. -/
theorem historical_var_linear_interpolation (ppf sqrtFn : ℚ → ℚ) (r : List ℚ)
    (cl inv : ℚ) (hlen : 10 ≤ r.length) (hc0 : 0 < cl) (hc1 : cl < 1) :
    estimate ppf sqrtFn r Method.historical cl inv
      = Except.ok ⟨(npPercentile r ((1 - cl) * 100)).getD 0,
          -((npPercentile r ((1 - cl) * 100)).getD 0 * inv), none⟩ ∧
    npPercentile demoReturns ((1 - 9/10) * 100) = some (-4/125) :=
  ⟨estimate_hist_eq ppf sqrtFn r cl inv hlen (le_of_lt hc0) (le_of_lt hc1),
   demo_percentile_90⟩

/-- C2 witness: the theorem applied to the demo series at confidence
level 0.90 and investment 1000. -/
theorem historical_var_linear_interpolation_witness :
    (estimate (fun _ => 0) (fun _ => 0) demoReturns Method.historical (9/10) 1000
      = Except.ok ⟨(npPercentile demoReturns ((1 - 9/10) * 100)).getD 0,
          -((npPercentile demoReturns ((1 - 9/10) * 100)).getD 0 * 1000), none⟩) ∧
    npPercentile demoReturns ((1 - 9/10) * 100) = some (-4/125) :=
  historical_var_linear_interpolation (fun _ => 0) (fun _ => 0) demoReturns
    (9/10) 1000 (by decide) (by norm_num) (by norm_num)

/-- C3: for both methods, every successful run returns
varCurrency = -(varReturn * investment); the currency amount is positive
whenever varReturn is negative and the investment positive, without any
special-casing of a non-negative varReturn; and doubling the investment
leaves varReturn unchanged and doubles varCurrency. -/
theorem var_currency_negation_and_scaling (ppf sqrtFn : ℚ → ℚ) (r : List ℚ)
    (m : Method) (cl inv : ℚ) (res res2 : VaRResult)
    (h : estimate ppf sqrtFn r m cl inv = Except.ok res)
    (h2 : estimate ppf sqrtFn r m cl (2 * inv) = Except.ok res2) :
    res.varCurrency = -(res.varReturn * inv) ∧
    (res.varReturn < 0 → 0 < inv → 0 < res.varCurrency) ∧
    res2.varReturn = res.varReturn ∧
    res2.varCurrency = 2 * res.varCurrency := by
  by_cases hlen : r.length < 10
  · rw [estimate_too_short ppf sqrtFn r m cl inv hlen] at h
    exact absurd h (by simp)
  · have hlen10 : 10 ≤ r.length := by omega
    cases m with
    | historical =>
      unfold estimate at h h2
      rw [if_neg (by omega)] at h h2
      cases hp : npPercentile r ((1 - cl) * 100) with
      | none =>
        rw [hp] at h
        simp [Option.elim] at h
      | some v =>
        rw [hp] at h h2
        simp only [Option.elim] at h h2
        injection h with h
        injection h2 with h2
        subst h
        subst h2
        refine ⟨rfl, ?_, rfl, by ring⟩
        intro hv hi
        show 0 < -(v * inv)
        nlinarith
    | varianceCovariance =>
      rw [estimate_varcov_eq ppf sqrtFn r cl inv hlen10] at h
      rw [estimate_varcov_eq ppf sqrtFn r cl (2 * inv) hlen10] at h2
      injection h with h
      injection h2 with h2
      subst h
      subst h2
      refine ⟨rfl, ?_, rfl, by ring⟩
      intro hv hi
      show 0 < -(varcovVarPercent (npMean r) (ppf (1 - cl)) (sqrtFn (npVariance r)) * inv)
      nlinarith

/-- C3 witness: the theorem applied to the Historical run on the demo
series at confidence level 0.90 with investments 1000 and 2000. -/
theorem var_currency_negation_and_scaling_witness :
    (⟨-4/125, 32, none⟩ : VaRResult).varCurrency
        = -((⟨-4/125, 32, none⟩ : VaRResult).varReturn * 1000) ∧
    ((⟨-4/125, 32, none⟩ : VaRResult).varReturn < 0 → 0 < (1000 : ℚ) →
        0 < (⟨-4/125, 32, none⟩ : VaRResult).varCurrency) ∧
    (⟨-4/125, 64, none⟩ : VaRResult).varReturn
        = (⟨-4/125, 32, none⟩ : VaRResult).varReturn ∧
    (⟨-4/125, 64, none⟩ : VaRResult).varCurrency
        = 2 * (⟨-4/125, 32, none⟩ : VaRResult).varCurrency :=
  var_currency_negation_and_scaling (fun _ => 0) (fun _ => 0) demoReturns
    Method.historical (9/10) 1000 ⟨-4/125, 32, none⟩ ⟨-4/125, 64, none⟩
    demo_hist_1000 demo_hist_2x1000

/-- C4: the price series [1, 0, 2] has a non-positive price at index 1,
yet the built return series keeps the finite return -1 of the pair
(1, 0) and keeps the non-finite entry +inf produced by the pair (0, 2),
because dropna removes only NaN; the claim that both returns touching
the bad index are excluded and that no non-finite entry remains is
violated by the code. -/
theorem zero_price_returns_not_excluded :
    returnsOf [1, 0, 2] = [PVal.fin (-1), PVal.posInf] ∧
    PVal.posInf ∈ returnsOf [1, 0, 2] := by
  have heval : returnsOf [1, 0, 2] = [PVal.fin (-1), PVal.posInf] := by
    norm_num [returnsOf, pctChange, pctChangeAux, pctChangeStep, dropna,
      PVal.isNan, List.filter]
  exact ⟨heval, by rw [heval]; exact List.mem_cons_of_mem _ (List.mem_cons_self _ _)⟩

/-- C5: for a price series of positive prices, the built return series is
exactly the list of simple returns (p2 - p1) / p1 of the consecutive
pairs, in chronological order, and its length is the price count minus
one. -/
theorem returns_build_formula_and_length (prices : List ℚ) (hlen : 2 ≤ prices.length)
    (hpos : ∀ p ∈ prices, 0 < p) :
    returnsOf prices
      = List.zipWith (fun a b => PVal.fin ((b - a) / a)) prices prices.tail ∧
    (returnsOf prices).length = prices.length - 1 := by
  have heq := returnsOf_pos_eq prices hpos
  refine ⟨heq, ?_⟩
  rw [heq, List.length_zipWith, List.length_tail]
  omega

/-- C5 witness: the theorem applied to the two-point price series [4, 2]. -/
theorem returns_build_formula_and_length_witness :
    (returnsOf [4, 2]
      = List.zipWith (fun a b => PVal.fin ((b - a) / a)) [4, 2] (List.tail [4, 2]) ∧
    (returnsOf [4, 2]).length = List.length [(4 : ℚ), 2] - 1) :=
  returns_build_formula_and_length [4, 2] (by decide)
    (by
      intro p hp
      simp only [List.mem_cons, List.not_mem_nil, or_false] at hp
      rcases hp with rfl | rfl <;> norm_num)

/-- C6: a return series shorter than 10 entries fails with
InsufficientData for every method and parameter set, and a series of
length at least 10 never produces that failure. -/
theorem below_ten_insufficient_data (ppf sqrtFn : ℚ → ℚ) (r : List ℚ) (m : Method)
    (cl inv : ℚ) :
    (r.length < 10 →
      estimate ppf sqrtFn r m cl inv = Except.error VaRError.insufficientData) ∧
    (10 ≤ r.length →
      estimate ppf sqrtFn r m cl inv ≠ Except.error VaRError.insufficientData) := by
  constructor
  · exact fun h => estimate_too_short ppf sqrtFn r m cl inv h
  · intro h
    cases m with
    | historical =>
      unfold estimate
      rw [if_neg (by omega)]
      cases hp : npPercentile r ((1 - cl) * 100) with
      | none => simp [Option.elim]
      | some v => simp [Option.elim]
    | varianceCovariance =>
      rw [estimate_varcov_eq ppf sqrtFn r cl inv h]
      simp

/-- C6 witness: a 9-element series fails with InsufficientData and the
10-element demo series does not, for the Historical method at
confidence level 0.90 and investment 1000. -/
theorem below_ten_insufficient_data_witness :
    estimate (fun _ => 0) (fun _ => 0) [1/100, 2/100, 3/100, 4/100, 5/100, 6/100,
        7/100, 8/100, 9/100] Method.historical (9/10) 1000
      = Except.error VaRError.insufficientData ∧
    estimate (fun _ => 0) (fun _ => 0) demoReturns Method.historical (9/10) 1000
      ≠ Except.error VaRError.insufficientData :=
  ⟨(below_ten_insufficient_data (fun _ => 0) (fun _ => 0) _ Method.historical
      (9/10) 1000).1 (by decide),
   (below_ten_insufficient_data (fun _ => 0) (fun _ => 0) demoReturns
      Method.historical (9/10) 1000).2 (by decide)⟩

/-- C7: on a return series of length at least 10 whose values are all the
same constant c, the divisor-n variance is exactly 0, so for any square
root kernel with sqrtFn 0 = 0 the Variance-Covariance branch returns
varReturn = c (the mean) exactly, with curve parameters (c, 0), raising
no error. -/
theorem constant_returns_sigma_zero_mu (ppf sqrtFn : ℚ → ℚ) (r : List ℚ)
    (c cl inv : ℚ) (hlen : 10 ≤ r.length) (hconst : ∀ x ∈ r, x = c)
    (hsq : sqrtFn 0 = 0) :
    npVariance r = 0 ∧
    estimate ppf sqrtFn r Method.varianceCovariance cl inv
      = Except.ok ⟨c, -(c * inv), some (c, 0)⟩ := by
  have hn : (r.length : ℚ) ≠ 0 := Nat.cast_ne_zero.mpr (by omega)
  have hrep : r = List.replicate r.length c := List.eq_replicate_of_mem hconst
  have hmean : npMean r = c := by
    unfold npMean
    rw [hrep, List.sum_replicate, List.length_replicate, nsmul_eq_mul,
      mul_div_cancel_left₀ _ hn]
  have hvar : npVariance r = 0 := by
    unfold npVariance sumSqDev
    rw [hmean]
    conv_lhs => rw [hrep]
    rw [List.map_replicate, List.length_replicate]
    simp
  refine ⟨hvar, ?_⟩
  rw [estimate_varcov_eq ppf sqrtFn r cl inv hlen, hmean, hvar, hsq]
  simp [varcovVarPercent]

/-- C7 witness: the theorem applied to ten identical returns of 1/2 at
confidence level 0.95 and investment 1000. -/
theorem constant_returns_sigma_zero_mu_witness :
    npVariance (List.replicate 10 (1/2)) = 0 ∧
    estimate (fun _ => 0) (fun _ => 0) (List.replicate 10 (1/2))
        Method.varianceCovariance (95/100) 1000
      = Except.ok ⟨1/2, -((1/2) * 1000), some (1/2, 0)⟩ :=
  constant_returns_sigma_zero_mu (fun _ => 0) (fun _ => 0)
    (List.replicate 10 (1/2)) (1/2) (95/100) 1000 (by decide)
    (fun x hx => List.eq_of_mem_replicate hx) rfl

/-- C8 counterexample: with a negative investment amount of -100 (and a
valid series and confidence level), the core does not fail with any
typed error: it returns a numeric result, here varReturn = -0.041 and
varCurrency = -4.1, a silently degraded negative loss figure.  This
refutes the claim that the core re-validates investmentAmount and
confidenceLevel and fails fast. -/
theorem invalid_investment_not_rejected :
    estimate (fun _ => 0) (fun _ => 0) demoReturns Method.historical
        (95/100) (-100)
      = Except.ok ⟨-41/1000, -41/10, none⟩ := by
  rw [estimate_hist_eq _ _ demoReturns (95/100) (-100) (by decide) (by norm_num)
    (by norm_num), demo_percentile_95]
  norm_num

/-- C8 (amended): the core performs no independent re-validation of
confidenceLevel or investmentAmount: for every return series of length
at least 10, every confidence level in [0, 1] and every investment
amount, including zero and negative ones, both methods return a numeric
result and never a typed error; the only guards in the core are the
sample-size check and the numpy percentile domain check. -/
theorem no_parameter_revalidation (ppf sqrtFn : ℚ → ℚ) (r : List ℚ) (m : Method)
    (cl inv : ℚ) (e : VaRError) (hlen : 10 ≤ r.length) (hc0 : 0 ≤ cl)
    (hc1 : cl ≤ 1) :
    estimate ppf sqrtFn r m cl inv ≠ Except.error e := by
  cases m with
  | historical =>
    rw [estimate_hist_eq ppf sqrtFn r cl inv hlen hc0 hc1]
    simp
  | varianceCovariance =>
    rw [estimate_varcov_eq ppf sqrtFn r cl inv hlen]
    simp

/-- C8 witness: the amended theorem applied at investment -100 on the demo
series, with the InsufficientData error as the instantiated non-result. -/
theorem no_parameter_revalidation_witness :
    estimate (fun _ => 0) (fun _ => 0) demoReturns Method.historical
        (95/100) (-100)
      ≠ Except.error VaRError.insufficientData :=
  no_parameter_revalidation (fun _ => 0) (fun _ => 0) demoReturns
    Method.historical (95/100) (-100) VaRError.insufficientData (by decide)
    (by norm_num) (by norm_num)

/-- C9: the estimation is a pure function of its inputs: two calls with
equal return series, method, confidence level and investment produce
equal results. -/
theorem estimate_deterministic (ppf sqrtFn : ℚ → ℚ) (r r2 : List ℚ) (m m2 : Method)
    (cl cl2 inv inv2 : ℚ) (hr : r = r2) (hm : m = m2) (hcl : cl = cl2)
    (hinv : inv = inv2) :
    estimate ppf sqrtFn r m cl inv = estimate ppf sqrtFn r2 m2 cl2 inv2 := by
  rw [hr, hm, hcl, hinv]

/-- C9 witness: the theorem applied to two identical Historical runs on
the demo series. -/
theorem estimate_deterministic_witness :
    estimate (fun _ => 0) (fun _ => 0) demoReturns Method.historical (9/10) 1000
      = estimate (fun _ => 0) (fun _ => 0) demoReturns Method.historical
          (9/10) 1000 :=
  estimate_deterministic (fun _ => 0) (fun _ => 0) demoReturns demoReturns
    Method.historical Method.historical (9/10) (9/10) 1000 1000 rfl rfl rfl rfl

/-- C10: the variance under the square root of the numpy standard
deviation used by the Variance-Covariance branch is the population
estimator with divisor n: npVariance r times n equals the sum of
squared deviations from the mean; and on the demo series it differs
from the Bessel-corrected sample estimator with divisor n - 1. -/
theorem std_uses_population_divisor (r : List ℚ) (hlen : 1 ≤ r.length) :
    npVariance r * r.length = (r.map (fun x => (x - npMean r) ^ 2)).sum ∧
    npVariance demoReturns ≠ besselVariance demoReturns := by
  constructor
  · have hn : (r.length : ℚ) ≠ 0 := Nat.cast_ne_zero.mpr (by omega)
    unfold npVariance sumSqDev
    exact div_mul_cancel₀ _ hn
  · norm_num [npVariance, besselVariance, sumSqDev, npMean, demoReturns]

/-- C10 witness: the theorem applied to the demo series. -/
theorem std_uses_population_divisor_witness :
    npVariance demoReturns * demoReturns.length
        = (demoReturns.map (fun x => (x - npMean demoReturns) ^ 2)).sum ∧
    npVariance demoReturns ≠ besselVariance demoReturns :=
  std_uses_population_divisor demoReturns (by decide)

end VaR
